import Mathlib

/-!
Shallow embedding of the stream-combinator core (merger.go and the multiplexer
source file) of the SpongeData-cz/stream repository, together with proofs of the
specification's claims about it.

Conventions of the embedding:
* A Go channel / `ChanneledInput` is a `Chan`: a FIFO buffer plus a closed flag.
  `ChanneledInput`'s own code is not part of the given sources; it is modelled
  from the spec (bounded buffer with write / idempotent close / validity
  reporting read).  Capacity only influences blocking, which a sequential model
  does not observe, so it is not carried in the state.
* A blocking or busy-waiting operation is given fuel or returns `Option`, with
  `none` meaning "would block / still spinning".
* Go pointer identity of attached producers is modelled with a numeric id.
* Go slices alias a backing array; `activeMerger`'s registry is therefore kept
  as a backing array (`arr`) plus the current slice length (`len`), so that the
  in-place element shifting done by `append(s[:i], s[i+1:]...)` is visible to a
  `range` loop that captured the slice header earlier.
-/

namespace StreamLib

/-- Modelled from the spec: the bounded-buffer primitive (`ChanneledInput`) is an
external collaborator whose code is not among the given sources; per the spec it
is a FIFO exposing write, idempotent close, and a read that reports validity. -/
structure Chan (T : Type) where
  buf : List T
  closed : Bool
deriving DecidableEq, Repr

/-- Receive on a channel: a buffered value is delivered valid; an empty closed
channel delivers the zero value with valid = false; an empty open channel
blocks (`none`). -/
def Chan.recv [Inhabited T] (c : Chan T) : Option (T × Bool × Chan T) :=
  match c.buf with
  | v :: rest => some (v, true, ⟨rest, c.closed⟩)
  | [] => if c.closed then some (default, false, c) else none

/-- Close the channel.  Modelled from the spec: `close()` is idempotent. -/
def Chan.close (c : Chan T) : Chan T :=
  { c with closed := true }

/-- Enqueue a value.  (Blocking on a full buffer is not observable in the
sequential model, so capacity is not tracked.) -/
def Chan.write (c : Chan T) (v : T) : Chan T :=
  { c with buf := c.buf ++ [v] }

/-- An attached source of the active merger: a `ChanneledProducer`, i.e. an
identity (Go interface pointer) together with its channel. -/
structure Src (T : Type) where
  id : Nat
  chan : Chan T
deriving DecidableEq, Repr

instance [Inhabited T] : Inhabited (Src T) := ⟨⟨0, ⟨[], false⟩⟩⟩

/-- State of `activeMerger` (merger.go lines 13-20): a source registry held as a Go
slice (backing array plus length), the autoclose policy, the `DefaultClosable`
closed flag, and the round-robin cursor `nextToReadFrom`. -/
structure ActiveMerger (T : Type) where
  arr : List (Src T)
  len : Nat
  autoclose : Bool
  closed : Bool
  nextToReadFrom : Nat
deriving DecidableEq, Repr

/-- The registry as seen through the current slice header. -/
def ActiveMerger.sources (m : ActiveMerger T) : List (Src T) :=
  m.arr.take m.len

/-- In-place removal of index `i` from the slice window `[0, len)`:
`append(s[:i], s[i+1:]...)` shifts elements left inside the window and leaves
the stale last element at position `len - 1` of the backing array. -/
def shiftRemove [Inhabited α] (arr : List α) (len i : Nat) : List α :=
  (List.range arr.length).map fun j =>
    if i ≤ j ∧ j + 1 < len then arr.getD (j + 1) default else arr.getD j default

/-- The linear scan `for i, source := range ego.sources` looking for the first
entry identical to `s` (merger.go lines 61-66 and 278-283). -/
def findFirstIdx [DecidableEq α] (s : α) : List α → Option Nat
  | [] => none
  | x :: xs => if x = s then some 0 else (findFirstIdx s xs).map (· + 1)

/-- Embeds `activeMerger.unsetSource` (merger.go lines 52-72): no-op when closed;
otherwise remove the first registry entry identical to `s`; when autoclose is
set and the registry became empty, call `Close()` — at that point the registry
is empty, so the recursive `Close` detaches nothing and only sets the
`DefaultClosable` closed flag, which is what is inlined here. -/
def ActiveMerger.unsetSource [DecidableEq T] [Inhabited T]
    (m : ActiveMerger T) (s : Src T) : ActiveMerger T :=
  if m.closed then m
  else
    let m1 :=
      match findFirstIdx s m.sources with
      | some i => { m with arr := shiftRemove m.arr m.len i, len := m.len - 1 }
      | none => m
    if m1.autoclose ∧ m1.len = 0 then { m1 with closed := true } else m1

/-- Embeds `activeMerger.SetSource` (merger.go lines 74-117) for a channeled source:
reject when closed, otherwise append to the registry.  The returned pair is
(error, new state). -/
def ActiveMerger.SetSource [DecidableEq T]
    (m : ActiveMerger T) (s : Src T) : Option String × ActiveMerger T :=
  if m.closed then (some "the stream is already closed", m)
  else (none, { m with arr := m.sources ++ [s], len := m.len + 1 })

/-- Embeds `activeMerger.Close` (merger.go lines 123-128):
`for _, s := range ego.sources { ego.unsetSource(s) }` followed by
`DefaultClosable.Close()`.  The range expression is evaluated once, capturing
the slice header (backing array pointer and length `m.len`); each iteration
reads element `i` through that header, i.e. from the backing array as mutated
by the preceding `unsetSource` calls. -/
def ActiveMerger.Close [DecidableEq T] [Inhabited T]
    (m : ActiveMerger T) : ActiveMerger T :=
  let m1 := (List.range m.len).foldl
    (fun acc i => acc.unsetSource (acc.arr.getD i default)) m
  { m1 with closed := true }

/-- The round-robin cursor advance performed on every poll attempt:
`ego.nextToReadFrom = (ego.nextToReadFrom + 1) % len(ego.sources)`
(merger.go line 145). -/
def ActiveMerger.advanceCursor (m : ActiveMerger T) : Nat :=
  (m.nextToReadFrom + 1) % m.len

/-- Replace the channel of registry entry `i` (the state of a source after a
value was received from it). -/
def ActiveMerger.updateSrc (m : ActiveMerger T) (i : Nat) (c : Chan T) :
    ActiveMerger T :=
  { m with arr := m.arr.mapIdx fun j t => if j = i then { t with chan := c } else t }

/-- The starvation error text of merger.go line 170. -/
def starvationMsg : String :=
  "no sources attached yet or all sources were unset and autoclose is not active"

/-- Embeds `activeMerger.Consume` (merger.go lines 130-172).  One call of the polling
loop, with fuel bounding the busy-wait: `none` means the loop is still
spinning.  Result: (value, valid, error, new state).
Loop body: if the registry is empty, exit the loop; otherwise advance the
cursor and do a non-blocking read of that source's channel — a valid value is
returned, a closed channel detaches the source and continues, a not-ready
channel (select default) continues.  After the loop: end-of-stream when
closed, the starvation error (with valid = true and the zero value) when not. -/
def ActiveMerger.consumeLoop [DecidableEq T] [Inhabited T] :
    Nat → ActiveMerger T → Option (T × Bool × Option String × ActiveMerger T)
  | 0, _ => none
  | fuel + 1, m =>
    if m.len = 0 then
      if m.closed then some (default, false, none, m)
      else some (default, true, some starvationMsg, m)
    else
      let m1 := { m with nextToReadFrom := m.advanceCursor }
      let src := m1.sources.getD m1.nextToReadFrom default
      match src.chan.recv with
      | some (v, valid, c) =>
        if valid then some (v, true, none, m1.updateSrc m1.nextToReadFrom c)
        else consumeLoop fuel (m1.unsetSource src)
      | none => consumeLoop fuel m1

/-- State of `channeledLazyMerger` (merger.go lines 183-190): the embedded
`ChanneledInput` (shared buffer), the source registry (producer identities; the
forwarding goroutines are not part of the state), the autoclose policy, and the
overflow buffer. -/
structure LazyMerger (T : Type) where
  chan : Chan T
  sources : List Nat
  autoclose : Bool
  overflowBuffer : List T
deriving DecidableEq, Repr

/-- Remove the first occurrence of `s` (the loop of merger.go lines 278-283). -/
def removeFirst [DecidableEq α] (s : α) : List α → List α
  | [] => []
  | x :: xs => if x = s then xs else x :: removeFirst s xs

/-- Embeds `channeledLazyMerger.unsetSource` (merger.go lines 270-292): no-op when
closed (the merger's closed state is the shared channel's); otherwise remove
the first matching registry entry; when autoclose is set and the registry
became empty, call `Close()` — the registry being empty, that call detaches
nothing and closes the shared channel, which is inlined here. -/
def LazyMerger.unsetSource (m : LazyMerger T) (s : Nat) : LazyMerger T :=
  if m.chan.closed then m
  else
    let m1 := { m with sources := removeFirst s m.sources }
    if m1.autoclose ∧ m1.sources = [] then { m1 with chan := m1.chan.close } else m1

/-- Embeds `channeledLazyMerger.SetSource` (merger.go lines 294-309): reject when
closed, otherwise append to the registry (the spawned forwarding goroutine is
not part of the state). -/
def LazyMerger.SetSource (m : LazyMerger T) (s : Nat) :
    Option String × LazyMerger T :=
  if m.chan.closed then (some "the stream is already closed", m)
  else (none, { m with sources := m.sources ++ [s] })

/-- The drain loop of `channeledLazyMerger.Close` (merger.go lines 316-324):
while the registry is non-empty, unset the front source.  Each pass removes the
front entry (unless the merger is already closed, in which case `unsetSource`
is a no-op and the Go loop would spin — a state only reachable concurrently),
so the registry length is sufficient fuel. -/
def LazyMerger.closeLoop : Nat → LazyMerger T → LazyMerger T
  | 0, m => m
  | fuel + 1, m =>
    match m.sources with
    | [] => m
    | s :: _ => closeLoop fuel (m.unsetSource s)

/-- Embeds `channeledLazyMerger.Close` (merger.go lines 315-331): drain the registry
from the front, then close the shared channel. -/
def LazyMerger.Close (m : LazyMerger T) : LazyMerger T :=
  let m1 := closeLoop m.sources.length m
  { m1 with chan := m1.chan.close }

/-- Embeds `channeledLazyMerger.Consume` (merger.go lines 333-344): read the shared
channel (`none` = the read would block); if the read reports end-of-stream and
the overflow buffer is non-empty, pop and return its front entry with
valid = true. -/
def LazyMerger.Consume [Inhabited T] (m : LazyMerger T) :
    Option (T × Bool × LazyMerger T) :=
  match m.chan.recv with
  | none => none
  | some (v, valid, c) =>
    let m1 := { m with chan := c }
    if valid then some (v, true, m1)
    else
      match m1.overflowBuffer with
      | x :: rest => some (x, true, { m1 with overflowBuffer := rest })
      | [] => some (v, false, m1)

/-- Repeatedly `Consume`, collecting the values delivered as valid. -/
def LazyMerger.drain [Inhabited T] : Nat → LazyMerger T → List T
  | 0, _ => []
  | n + 1, m =>
    match m.Consume with
    | some (v, true, m1) => v :: LazyMerger.drain n m1
    | _ => []

/-- State of `multiplexer` (the multiplexer source file): the broadcast outputs.
(The `DefaultConsumer` upstream is passed to `pipeData` as the event list.) -/
structure Multiplexer (T : Type) where
  outputs : List (Chan T)
deriving DecidableEq, Repr

/-- Embeds `NewMultiplexer`: `branches` fresh channels (capacity only affects
blocking, which the model does not observe). -/
def NewMultiplexer (T : Type) (branches : Nat) : Multiplexer T :=
  ⟨List.replicate branches ⟨[], false⟩⟩

/-- Embeds `multiplexer.pipeData` (multiplexer source, lines 39-55), applied to the
sequence of results upstream `Consume` will deliver.  On an error or an
invalid read it returns, the deferred `output.Close()` calls closing every
output; on a valid value it writes it to every output in output order. -/
def pipeData (events : List (T × Bool × Option String)) (outs : List (Chan T)) :
    List (Chan T) :=
  match events with
  | [] => outs.map Chan.close
  | (v, valid, err) :: rest =>
    if err.isSome ∨ valid = false then outs.map Chan.close
    else pipeData rest (outs.map fun o => o.write v)

/-- Go indexing `l[i]` with an `int` index: the element when in range,
a runtime index-out-of-range fault (`none`) otherwise. -/
def goIndex (l : List α) (i : Int) : Option α :=
  if 0 ≤ i then l.get? i.toNat else none

/-- Embeds `multiplexer.Out` (multiplexer source, lines 57-59): `ego.outputs[index]`,
with no bounds check of its own. -/
def Multiplexer.Out (m : Multiplexer T) (index : Int) : Option (Chan T) :=
  goIndex m.outputs index

/-! ## Helper lemmas -/

theorem active_unsetSource_closed_noop [DecidableEq T] [Inhabited T]
    (m : ActiveMerger T) (s : Src T) (h : m.closed = true) :
    m.unsetSource s = m := by
  simp [ActiveMerger.unsetSource, h]

theorem active_set_closed_self (m : ActiveMerger T) (h : m.closed = true) :
    { m with closed := true } = m := by
  cases m
  simp_all

theorem lazy_unsetSource_closed_noop (m : LazyMerger T) (s : Nat)
    (h : m.chan.closed = true) : m.unsetSource s = m := by
  simp [LazyMerger.unsetSource, h]

theorem chan_close_of_closed (c : Chan T) (h : c.closed = true) :
    c.close = c := by
  cases c
  simp_all [Chan.close]

theorem lazy_closeLoop_of_closed (fuel : Nat) (m : LazyMerger T)
    (h : m.chan.closed = true) : LazyMerger.closeLoop fuel m = m := by
  induction fuel with
  | zero => rfl
  | succ n ih =>
    cases hs : m.sources with
    | nil => simp [LazyMerger.closeLoop, hs]
    | cons s rest => simp [LazyMerger.closeLoop, hs, lazy_unsetSource_closed_noop m s h, ih]

theorem lazy_close_sets_closed (m : LazyMerger T) : (m.Close).chan.closed = true := by
  simp [LazyMerger.Close, Chan.close]

theorem active_close_sets_closed [DecidableEq T] [Inhabited T]
    (m : ActiveMerger T) : (m.Close).closed = true := by
  simp [ActiveMerger.Close]

/-! ## Claim theorems -/

/-- C5: for both mergers, `SetSource` on an already-closed merger returns the
"closed" error synchronously and leaves the whole state — in particular the
source registry — unchanged. -/
theorem setSource_after_close :
    (∀ (m : ActiveMerger ℕ) (s : Src ℕ), m.closed = true →
      m.SetSource s = (some "the stream is already closed", m)) ∧
    (∀ (m : LazyMerger ℕ) (s : Nat), m.chan.closed = true →
      m.SetSource s = (some "the stream is already closed", m)) := by
  constructor
  · intro m s h
    simp [ActiveMerger.SetSource, h]
  · intro m s h
    simp [LazyMerger.SetSource, h]

/-- Witness for C5 at concrete closed mergers. -/
theorem setSource_after_close_witness :
    (⟨[], 0, false, true, 0⟩ : ActiveMerger ℕ).SetSource ⟨7, ⟨[], false⟩⟩ =
      (some "the stream is already closed", ⟨[], 0, false, true, 0⟩) ∧
    (⟨⟨[], true⟩, [], false, []⟩ : LazyMerger ℕ).SetSource 7 =
      (some "the stream is already closed", ⟨⟨[], true⟩, [], false, []⟩) :=
  ⟨setSource_after_close.1 ⟨[], 0, false, true, 0⟩ ⟨7, ⟨[], false⟩⟩ rfl,
   setSource_after_close.2 ⟨⟨[], true⟩, [], false, []⟩ 7 rfl⟩

/-- C4: when `activeMerger.Consume`'s polling loop exits because the registry
is empty, a closed merger yields end-of-stream `(zero, false, nil)` and an open
merger yields the starvation error; the open state is recoverable: `SetSource`
still succeeds and grows the registry, so the caller may attach and retry. -/
theorem activeConsume_empty_registry (m : ActiveMerger ℕ) (fuel : Nat)
    (h : m.len = 0) :
    (m.closed = true →
      ActiveMerger.consumeLoop (fuel + 1) m = some (default, false, none, m)) ∧
    (m.closed = false →
      ActiveMerger.consumeLoop (fuel + 1) m =
        some (default, true, some starvationMsg, m)) ∧
    (m.closed = false → ∀ s, (m.SetSource s).1 = none ∧
      (m.SetSource s).2.len = m.len + 1) := by
  refine ⟨fun hc => ?_, fun hc => ?_, fun hc s => ?_⟩
  · simp [ActiveMerger.consumeLoop, h, hc]
  · simp [ActiveMerger.consumeLoop, h, hc]
  · simp [ActiveMerger.SetSource, hc]

/-- Witness for C4 on a closed and on an open empty-registry merger. -/
theorem activeConsume_empty_registry_witness :
    ActiveMerger.consumeLoop 1 (⟨[], 0, false, true, 0⟩ : ActiveMerger ℕ) =
       some (default, false, none, ⟨[], 0, false, true, 0⟩) ∧
    ActiveMerger.consumeLoop 1 (⟨[], 0, false, false, 0⟩ : ActiveMerger ℕ) =
       some (default, true, some starvationMsg, ⟨[], 0, false, false, 0⟩) ∧
    ((⟨[], 0, false, false, 0⟩ : ActiveMerger ℕ).SetSource ⟨3, ⟨[], false⟩⟩).1 = none :=
  ⟨(activeConsume_empty_registry ⟨[], 0, false, true, 0⟩ 0 rfl).1 rfl,
   (activeConsume_empty_registry ⟨[], 0, false, false, 0⟩ 0 rfl).2.1 rfl,
   ((activeConsume_empty_registry ⟨[], 0, false, false, 0⟩ 0 rfl).2.2 rfl
      ⟨3, ⟨[], false⟩⟩).1⟩

/-- C10: the starvation return of `activeMerger.Consume` (empty registry,
merger open) is the tuple `(zero value, valid = true, error)`: the valid flag
is `true` exactly as for a genuinely delivered value, so a caller inspecting
only the flag cannot tell the two apart. -/
theorem starvation_result_valid_true (m : ActiveMerger ℕ) (fuel : Nat)
    (h : m.len = 0) (hc : m.closed = false) :
    ActiveMerger.consumeLoop (fuel + 1) m =
      some ((default : ℕ), true, some starvationMsg, m) := by
  simp [ActiveMerger.consumeLoop, h, hc]

/-- Witness for C10 at a concrete open empty-registry merger. -/
theorem starvation_result_valid_true_witness :
    ActiveMerger.consumeLoop 5 (⟨[], 0, true, false, 2⟩ : ActiveMerger ℕ) =
      some ((default : ℕ), true, some starvationMsg, ⟨[], 0, true, false, 2⟩) :=
  starvation_result_valid_true ⟨[], 0, true, false, 2⟩ 4 rfl rfl

theorem active_close_of_closed [DecidableEq T] [Inhabited T]
    (m : ActiveMerger T) (h : m.closed = true) : m.Close = m := by
  have hfold : ∀ (l : List Nat),
      l.foldl (fun acc i => acc.unsetSource (acc.arr.getD i default)) m = m := by
    intro l
    induction l with
    | nil => rfl
    | cons a l ih =>
      rw [List.foldl_cons, active_unsetSource_closed_noop m (m.arr.getD a default) h]
      exact ih
  have : m.Close = { m with closed := true } := by
    simp only [ActiveMerger.Close, hfold]
  rw [this, active_set_closed_self m h]

theorem lazy_close_of_closed (m : LazyMerger T)
    (h : m.chan.closed = true) : m.Close = m := by
  have : m.Close = { m with chan := m.chan.close } := by
    simp only [LazyMerger.Close, lazy_closeLoop_of_closed _ _ h]
  rw [this, chan_close_of_closed m.chan h]

/-- C7: `Close` is idempotent for both mergers — a second `Close` returns the
state unchanged (no fault in the model: `unsetSource` is a no-op once closed
and the channel close is idempotent) and the merger stays closed. -/
theorem close_idempotent :
    (∀ (m : ActiveMerger ℕ), m.Close.Close = m.Close ∧ m.Close.closed = true) ∧
    (∀ (m : LazyMerger ℕ), m.Close.Close = m.Close ∧ m.Close.chan.closed = true) := by
  refine ⟨fun m => ⟨?_, active_close_sets_closed m⟩,
    fun m => ⟨?_, lazy_close_sets_closed m⟩⟩
  · exact active_close_of_closed m.Close (active_close_sets_closed m)
  · exact lazy_close_of_closed m.Close (lazy_close_sets_closed m)

/-- C2 (refuting evaluation): `activeMerger.Close` ranges over the registry
slice header captured before the loop while `unsetSource` shifts the backing
array in place, so with three attached sources 1, 2, 3 the iteration reads
sources 1, 3, 3 and the second source is never detached: after `Close` the
merger is closed but the registry still holds source 2.
`channeledLazyMerger.Close`, which re-reads the registry front on every pass,
does leave the registry empty. -/
theorem activeClose_leaves_second_source :
    (ActiveMerger.Close
        (⟨[⟨1, ⟨[], false⟩⟩, ⟨2, ⟨[], false⟩⟩, ⟨3, ⟨[], false⟩⟩],
          3, false, false, 0⟩ : ActiveMerger ℕ)).closed = true ∧
    (ActiveMerger.Close
        (⟨[⟨1, ⟨[], false⟩⟩, ⟨2, ⟨[], false⟩⟩, ⟨3, ⟨[], false⟩⟩],
          3, false, false, 0⟩ : ActiveMerger ℕ)).sources = [⟨2, ⟨[], false⟩⟩] ∧
    (ActiveMerger.Close
        (⟨[⟨1, ⟨[], false⟩⟩, ⟨2, ⟨[], false⟩⟩, ⟨3, ⟨[], false⟩⟩],
          3, true, false, 0⟩ : ActiveMerger ℕ)).sources = [⟨2, ⟨[], false⟩⟩] ∧
    (LazyMerger.Close (⟨⟨[], false⟩, [1, 2, 3], false, []⟩ : LazyMerger ℕ)).sources
      = [] ∧
    (LazyMerger.Close (⟨⟨[], false⟩, [1, 2, 3], false, []⟩ : LazyMerger ℕ)).chan.closed
      = true := by
  decide

/-- C1: `channeledLazyMerger.Consume` reads the shared buffer first (leaving
the overflow buffer untouched); when that read reports end-of-stream and the
overflow buffer is non-empty it pops and returns the oldest overflow entry with
valid = true; it reports valid = false only when the shared buffer is drained
and closed and the overflow buffer is empty; and after the shared buffer
reports end-of-stream the overflow entries come out in FIFO order. -/
theorem lazyConsume_overflow_spec :
    (∀ (m : LazyMerger ℕ) (v : ℕ) rest, m.chan.buf = v :: rest →
      m.Consume = some (v, true, { m with chan := ⟨rest, m.chan.closed⟩ })) ∧
    (∀ (m : LazyMerger ℕ) (x : ℕ) xs, m.chan.buf = [] → m.chan.closed = true →
      m.overflowBuffer = x :: xs →
      m.Consume = some (x, true, { m with overflowBuffer := xs })) ∧
    (∀ (m m1 : LazyMerger ℕ) (v : ℕ), m.Consume = some (v, false, m1) →
      m.chan.buf = [] ∧ m.chan.closed = true ∧ m.overflowBuffer = []) ∧
    (∀ (l : List ℕ) (srcs : List Nat) (ac : Bool) (n : Nat), l.length ≤ n →
      LazyMerger.drain n ⟨⟨[], true⟩, srcs, ac, l⟩ = l) := by
  refine ⟨?_, ?_, ?_, ?_⟩
  · intro m v rest hb
    simp [LazyMerger.Consume, Chan.recv, hb]
  · intro m x xs hb hc ho
    simp [LazyMerger.Consume, Chan.recv, hb, hc, ho]
  · intro m m1 v h
    cases hb : m.chan.buf with
    | cons a rest => simp [LazyMerger.Consume, Chan.recv, hb] at h
    | nil =>
      cases hc : m.chan.closed with
      | false => simp [LazyMerger.Consume, Chan.recv, hb, hc] at h
      | true =>
        cases ho : m.overflowBuffer with
        | cons x xs => simp [LazyMerger.Consume, Chan.recv, hb, hc, ho] at h
        | nil => simp_all
  · intro l
    induction l with
    | nil =>
      intro srcs ac n hn
      cases n with
      | zero => rfl
      | succ k => simp [LazyMerger.drain, LazyMerger.Consume, Chan.recv]
    | cons x xs ih =>
      intro srcs ac n hn
      cases n with
      | zero => simp at hn
      | succ k =>
        have hk : xs.length ≤ k := by simpa using hn
        simp [LazyMerger.drain, LazyMerger.Consume, Chan.recv, ih srcs ac k hk]

/-- Witness for C1: the four parts applied at concrete mergers. -/
theorem lazyConsume_overflow_spec_witness :
    (⟨⟨[5, 6], false⟩, [], false, [9]⟩ : LazyMerger ℕ).Consume =
      some (5, true, ⟨⟨[6], false⟩, [], false, [9]⟩) ∧
    (⟨⟨[], true⟩, [], false, [7, 8]⟩ : LazyMerger ℕ).Consume =
      some (7, true, ⟨⟨[], true⟩, [], false, [8]⟩) ∧
    ((⟨⟨[], true⟩, [], false, []⟩ : LazyMerger ℕ).chan.buf = [] ∧
      (⟨⟨[], true⟩, [], false, []⟩ : LazyMerger ℕ).chan.closed = true ∧
      (⟨⟨[], true⟩, [], false, []⟩ : LazyMerger ℕ).overflowBuffer = []) ∧
    LazyMerger.drain 3 (⟨⟨[], true⟩, [], false, [7, 8]⟩ : LazyMerger ℕ) = [7, 8] :=
  ⟨lazyConsume_overflow_spec.1 ⟨⟨[5, 6], false⟩, [], false, [9]⟩ 5 [6] rfl,
   lazyConsume_overflow_spec.2.1 ⟨⟨[], true⟩, [], false, [7, 8]⟩ 7 [8] rfl rfl rfl,
   lazyConsume_overflow_spec.2.2.1 ⟨⟨[], true⟩, [], false, []⟩
     ⟨⟨[], true⟩, [], false, []⟩ 0 (by decide),
   lazyConsume_overflow_spec.2.2.2 [7, 8] [] false 3 (by decide)⟩

/-- C3: a detach that empties the registry of an autoclose merger closes it;
once closed, `unsetSource` is a no-op (the transition happens exactly once);
with autoclose off the merger stays open after the registry empties and
`SetSource` still succeeds.  Stated for both merger implementations. -/
theorem autoclose_transition :
    (∀ (m : ActiveMerger ℕ) (s : Src ℕ), m.closed = false → m.autoclose = true →
      m.len = 1 → m.sources = [s] →
      (m.unsetSource s).closed = true ∧ (m.unsetSource s).len = 0) ∧
    (∀ (m : ActiveMerger ℕ) (s : Src ℕ), m.closed = true → m.unsetSource s = m) ∧
    (∀ (m : ActiveMerger ℕ) (s t : Src ℕ), m.closed = false → m.autoclose = false →
      (m.unsetSource s).closed = false ∧ ((m.unsetSource s).SetSource t).1 = none) ∧
    (∀ (m : LazyMerger ℕ) (s : Nat), m.chan.closed = false → m.autoclose = true →
      m.sources = [s] →
      (m.unsetSource s).chan.closed = true ∧ (m.unsetSource s).sources = []) ∧
    (∀ (m : LazyMerger ℕ) (s : Nat), m.chan.closed = true → m.unsetSource s = m) ∧
    (∀ (m : LazyMerger ℕ) (s t : Nat), m.chan.closed = false → m.autoclose = false →
      (m.unsetSource s).chan.closed = false ∧
      ((m.unsetSource s).SetSource t).1 = none ∧
      ((m.unsetSource s).SetSource t).2.sources =
        (m.unsetSource s).sources ++ [t]) := by
  refine ⟨?_, ?_, ?_, ?_, ?_, ?_⟩
  · intro m s hc ha hl hs
    simp [ActiveMerger.unsetSource, hc, ha, hl, hs, findFirstIdx]
  · intro m s hc
    exact active_unsetSource_closed_noop m s hc
  · intro m s t hc ha
    have h1 : (m.unsetSource s).closed = false := by
      unfold ActiveMerger.unsetSource
      cases hfind : findFirstIdx s m.sources <;> simp [hc, ha, hfind]
    exact ⟨h1, by simp [ActiveMerger.SetSource, h1]⟩
  · intro m s hc ha hs
    simp [LazyMerger.unsetSource, hc, ha, hs, removeFirst, Chan.close]
  · intro m s hc
    exact lazy_unsetSource_closed_noop m s hc
  · intro m s t hc ha
    have h1 : (m.unsetSource s).chan.closed = false := by
      simp [LazyMerger.unsetSource, hc, ha]
    exact ⟨h1, by simp [LazyMerger.SetSource, h1], by simp [LazyMerger.SetSource, h1]⟩

/-- Witness for C3 at concrete mergers with one attached source. -/
theorem autoclose_transition_witness :
    ((⟨[⟨1, ⟨[], false⟩⟩], 1, true, false, 0⟩ : ActiveMerger ℕ).unsetSource
        ⟨1, ⟨[], false⟩⟩).closed = true ∧
    ((⟨[⟨1, ⟨[], false⟩⟩], 1, true, true, 0⟩ : ActiveMerger ℕ).unsetSource
        ⟨1, ⟨[], false⟩⟩) = ⟨[⟨1, ⟨[], false⟩⟩], 1, true, true, 0⟩ ∧
    ((⟨[⟨1, ⟨[], false⟩⟩], 1, false, false, 0⟩ : ActiveMerger ℕ).unsetSource
        ⟨1, ⟨[], false⟩⟩).closed = false ∧
    ((⟨⟨[], false⟩, [4], true, []⟩ : LazyMerger ℕ).unsetSource 4).chan.closed = true ∧
    ((⟨⟨[], true⟩, [4], true, []⟩ : LazyMerger ℕ).unsetSource 4) =
      ⟨⟨[], true⟩, [4], true, []⟩ ∧
    ((⟨⟨[], false⟩, [4], false, []⟩ : LazyMerger ℕ).unsetSource 4).chan.closed = false :=
  ⟨(autoclose_transition.1 ⟨[⟨1, ⟨[], false⟩⟩], 1, true, false, 0⟩
      ⟨1, ⟨[], false⟩⟩ rfl rfl rfl rfl).1,
   autoclose_transition.2.1 ⟨[⟨1, ⟨[], false⟩⟩], 1, true, true, 0⟩
      ⟨1, ⟨[], false⟩⟩ rfl,
   (autoclose_transition.2.2.1 ⟨[⟨1, ⟨[], false⟩⟩], 1, false, false, 0⟩
      ⟨1, ⟨[], false⟩⟩ ⟨2, ⟨[], false⟩⟩ rfl rfl).1,
   (autoclose_transition.2.2.2.1 ⟨⟨[], false⟩, [4], true, []⟩ 4 rfl rfl rfl).1,
   autoclose_transition.2.2.2.2.1 ⟨⟨[], true⟩, [4], true, []⟩ 4 rfl,
   (autoclose_transition.2.2.2.2.2 ⟨⟨[], false⟩, [4], false, []⟩ 4 5 rfl rfl).1⟩

/-- C8: `activeMerger.Consume` advances the round-robin cursor to
`(nextToReadFrom + 1) % len(sources)` on every poll attempt, so whenever the
registry is non-empty the cursor used to index it lies in `[0, len)` and the
registry access yields an actual element. -/
theorem cursor_in_bounds (m : ActiveMerger ℕ) (h1 : 0 < m.len)
    (h2 : m.len ≤ m.arr.length) :
    m.advanceCursor < m.len ∧
    (m.sources.get? m.advanceCursor).isSome = true := by
  have hb : m.advanceCursor < m.len := Nat.mod_lt _ h1
  have hlen : m.sources.length = m.len := by
    simp [ActiveMerger.sources, List.length_take, Nat.min_eq_left h2]
  refine ⟨hb, ?_⟩
  rw [List.get?_eq_get (by rw [hlen]; exact hb)]
  rfl

theorem pipeData_clean (vs : List ℕ) :
    ∀ outs : List (Chan ℕ),
      pipeData (vs.map (fun v => (v, true, (none : Option String))) ++
          [(0, false, none)]) outs =
        outs.map (fun o => ⟨o.buf ++ vs, true⟩) := by
  induction vs with
  | nil =>
    intro outs
    simp [pipeData, Chan.close]
  | cons v vs ih =>
    intro outs
    rw [List.map_cons, List.cons_append]
    have hstep :
        pipeData ((v, true, (none : Option String)) ::
            (vs.map (fun w => (w, true, (none : Option String))) ++
              [(0, false, none)])) outs =
          pipeData (vs.map (fun w => (w, true, (none : Option String))) ++
              [(0, false, none)]) (outs.map fun o => o.write v) := by
      simp [pipeData]
    rw [hstep, ih]
    simp [Chan.write, List.map_map, Function.comp]

theorem allClosed_map_close (outs : List (Chan T)) :
    ((outs.map Chan.close).all fun c => c.closed) = true := by
  induction outs with
  | nil => rfl
  | cons o rest ih => simp [Chan.close, ih]

/-- C6: the multiplexer broadcast task delivers every valid upstream value to
every output in output order — for a clean upstream sequence `vs` followed by
end-of-stream, each of the `B` fresh outputs ends holding exactly `vs` and
closed — it stops on the first upstream error or end-of-stream, and on every
exit path (the deferred closes) all outputs end closed. -/
theorem multiplexer_broadcast :
    (∀ (vs : List ℕ) (B : Nat),
      pipeData (vs.map (fun v => (v, true, (none : Option String))) ++
          [(0, false, none)]) (NewMultiplexer ℕ B).outputs =
        List.replicate B ⟨vs, true⟩) ∧
    (∀ (events : List (ℕ × Bool × Option String)) (outs : List (Chan ℕ)),
      ((pipeData events outs).all fun c => c.closed) = true) ∧
    (∀ (v : ℕ) (b : Bool) (e : String) (rest : List (ℕ × Bool × Option String))
        (outs : List (Chan ℕ)),
      pipeData ((v, b, some e) :: rest) outs = outs.map Chan.close) ∧
    (∀ (v : ℕ) (rest : List (ℕ × Bool × Option String)) (outs : List (Chan ℕ)),
      pipeData ((v, false, none) :: rest) outs = outs.map Chan.close) := by
  refine ⟨?_, ?_, ?_, ?_⟩
  · intro vs B
    rw [pipeData_clean]
    simp [NewMultiplexer, List.map_replicate]
  · intro events
    induction events with
    | nil =>
      intro outs
      simpa [pipeData] using allClosed_map_close outs
    | cons ev rest ih =>
      intro outs
      obtain ⟨v, b, err⟩ := ev
      by_cases hstop : err.isSome = true ∨ b = false
      · simpa [pipeData, hstop] using allClosed_map_close outs
      · simp [pipeData, hstop, ih]
  · intro v b e rest outs
    simp [pipeData]
  · intro v rest outs
    simp [pipeData]

/-- C9: `multiplexer.Out index` returns the index-th broadcast output when
`0 ≤ index < B` (the branch count, the length of `outputs`); any index outside
that range faults with Go's index-out-of-range runtime error (`none`) instead
of returning a Producer. -/
theorem multiplexer_out_bounds (outs : List (Chan ℕ)) (i : Int) :
    (0 ≤ i → i.toNat < outs.length →
      Multiplexer.Out ⟨outs⟩ i = outs.get? i.toNat ∧
      (Multiplexer.Out ⟨outs⟩ i).isSome = true) ∧
    (i < 0 ∨ (outs.length : Int) ≤ i → Multiplexer.Out ⟨outs⟩ i = none) := by
  constructor
  · intro hi hlt
    refine ⟨by simp [Multiplexer.Out, goIndex, hi], ?_⟩
    rw [show Multiplexer.Out ⟨outs⟩ i = outs.get? i.toNat by
      simp [Multiplexer.Out, goIndex, hi]]
    rw [List.get?_eq_get hlt]
    rfl
  · intro hcase
    cases hcase with
    | inl hneg => simp [Multiplexer.Out, goIndex, not_le.mpr hneg]
    | inr hge =>
      have h0 : 0 ≤ i := le_trans (Int.ofNat_nonneg outs.length) hge
      have hlen : outs.length ≤ i.toNat := by omega
      simp [Multiplexer.Out, goIndex, h0, List.get?_eq_none]
      omega

/-- Witness for C9: a two-branch multiplexer indexed at 1, -1 and 2. -/
theorem multiplexer_out_bounds_witness :
    Multiplexer.Out ⟨[⟨[], false⟩, ⟨[7], false⟩]⟩ (1 : Int) =
      ([⟨[], false⟩, ⟨[7], false⟩] : List (Chan ℕ)).get? 1 ∧
    Multiplexer.Out (⟨[⟨[], false⟩, ⟨[7], false⟩]⟩ : Multiplexer ℕ) (-1 : Int) = none ∧
    Multiplexer.Out (⟨[⟨[], false⟩, ⟨[7], false⟩]⟩ : Multiplexer ℕ) (2 : Int) = none :=
  ⟨((multiplexer_out_bounds [⟨[], false⟩, ⟨[7], false⟩] 1).1 (by decide) (by decide)).1,
   (multiplexer_out_bounds [⟨[], false⟩, ⟨[7], false⟩] (-1)).2 (Or.inl (by decide)),
   (multiplexer_out_bounds [⟨[], false⟩, ⟨[7], false⟩] 2).2 (Or.inr (by decide))⟩

/-- Witness for C8 on a two-source registry. -/
theorem cursor_in_bounds_witness :
    0 < (2 : Nat) ∧
    (⟨[⟨1, ⟨[], false⟩⟩, ⟨2, ⟨[], false⟩⟩], 2, false, false, 0⟩ :
      ActiveMerger ℕ).advanceCursor < 2 :=
  ⟨by decide,
   (cursor_in_bounds ⟨[⟨1, ⟨[], false⟩⟩, ⟨2, ⟨[], false⟩⟩], 2, false, false, 0⟩
      (by decide) (by decide)).1⟩

end StreamLib
